import Mathlib

/-!
Verification of the tedana component-reclassification core against its
specification.  The data model and operations below are a shallow embedding:
pure Lean functions mirroring the Manual-List Parser, the Reclassification
Workflow, the File Registry / Provenance Log, and the integration-level
data-availability check (`guarantee_reclassify_data` and
`check_integration_outputs` from `src/tedana/tests/test_integration.py`).
Where the implementation module itself is not part of the excerpt, the
definition is modelled from the spec, with error classes and message texts
pinned by the expectations hard-coded in the integration tests.
-/

namespace Tedana

abbrev Path := String

/-- Python exception classes that the modelled code can raise. -/
inductive ErrKind
  | typeError
  | valueError
  | keyError
  deriving DecidableEq

/-- Python name of an exception class, as it appears on stderr. -/
def ErrKind.pyName : ErrKind → String
  | .typeError => "TypeError"
  | .valueError => "ValueError"
  | .keyError => "KeyError"

/-- A raised Python error: its exception class and its message. -/
structure PyError where
  kind : ErrKind
  msg : String
  deriving DecidableEq

/-- Classification tag of a component. -/
inductive Classification
  | accepted
  | rejected
  | ignored
  | unclassified
  deriving DecidableEq

/-- One row of the metrics table: a component with its stable integer index,
current classification and accumulated rationale codes. -/
structure Component where
  index : Nat
  classification : Classification
  rationale : List String
  deriving DecidableEq

/-- The metrics table: one row per component. -/
abbrev MetricsTable := List Component

/-- A heterogeneous value appearing in a manual accept/reject list:
a Python int, a Python float (carried as its printed form, whether its value
is integral, and the integer it converts to when it is), or a string. -/
inductive ManualVal
  | int (n : Int)
  | float (printed : String) (isIntegral : Bool) (intVal : Int)
  | str (s : String)
  deriving DecidableEq

/-- Printed form of a manual-list element, as interpolated into error
messages by the implementation. -/
def pyRepr : ManualVal → String
  | .int n => toString n
  | .float printed _ _ => printed
  | .str s => s

/-- Comma-space separated rendering of a list of printed elements. -/
def joinSep : List String → String
  | [] => ""
  | [s] => s
  | s :: rest => s ++ ", " ++ joinSep rest

/-- Python-style rendering of a manual list, as in an f-string. -/
def pyReprList (vs : List ManualVal) : String :=
  "[" ++ joinSep (vs.map pyRepr) ++ "]"

/-- Python-style rendering of a list of natural numbers. -/
def reprNatList (ns : List Nat) : String :=
  "[" ++ joinSep (ns.map toString) ++ "]"

/-- Accumulate decimal digits into a number, failing on a non-digit. -/
def charsToNatAux : List Char → Nat → Option Nat
  | [], acc => some acc
  | c :: rest, acc =>
    if c.isDigit then charsToNatAux rest (acc * 10 + (c.toNat - 48)) else none

/-- Parse a nonempty all-digit string as a natural number. -/
def strToNat? (s : String) : Option Nat :=
  match s.data with
  | [] => none
  | c :: rest => charsToNatAux (c :: rest) 0

/-- Parse a decimal integer string, with an optional leading minus sign. -/
def strToInt? (s : String) : Option Int :=
  match s.data with
  | [] => none
  | '-' :: c :: rest => (charsToNatAux (c :: rest) 0).map (fun n => -(n : Int))
  | c :: rest => (charsToNatAux (c :: rest) 0).map (fun n => (n : Int))

/-- The integer a manual-list element converts to, when it is
integer-valued: ints directly, floats only when integral, strings via
numeric parsing. -/
def ManualVal.asInt : ManualVal → Option Int
  | .int n => some n
  | .float _ true v => some v
  | .float _ false _ => none
  | .str s => strToInt? s

/-- Whether a manual-list element is a Python numeric (int or float). -/
def ManualVal.isNumeric : ManualVal → Bool
  | .int _ => true
  | .float _ _ _ => true
  | .str _ => false

/-- The filesystem visible to the parser: existing CSV files with a
"Components" column, keyed by path. -/
abbrev FileSystem := List (Path × List Nat)

/-- Insert into a strictly sorted list, skipping duplicates. -/
def insertDedup (n : Nat) : List Nat → List Nat
  | [] => [n]
  | m :: ms =>
    if n < m then n :: m :: ms
    else if n = m then m :: ms
    else m :: insertDedup n ms

/-- Ordered-then-deduplicated set of indices, as a sorted list. -/
def sortedDedup (xs : List Nat) : List Nat :=
  xs.foldr insertDedup []

/-- Sequence a list of optional values, failing if any is absent. -/
def seqOption {α : Type} : List (Option α) → Option (List α)
  | [] => some []
  | none :: _ => none
  | some a :: rest => (seqOption rest).map (fun l => a :: l)

/-- Split a character list at every delimiter, keeping empty pieces, as
Python string splitting does before empty tokens are discarded. -/
def splitTokens (p : Char → Bool) : List Char → List (List Char)
  | [] => [[]]
  | c :: rest =>
    let r := splitTokens p rest
    if p c then [] :: r
    else
      match r with
      | [] => [[c]]
      | t :: ts => (c :: t) :: ts

/-- Tokens of a comma- and/or whitespace-delimited string, empty pieces
discarded. -/
def delimTokens (s : String) : List String :=
  ((splitTokens (fun c => c == ',' || c.isWhitespace) s.data).map
    (fun cs => String.mk cs)).filter (fun t => !(t == ""))

instance exceptDecEq {ε α : Type} [DecidableEq ε] [DecidableEq α] :
    DecidableEq (Except ε α) := fun a b =>
  match a, b with
  | .ok x, .ok y =>
    if h : x = y then .isTrue (by rw [h]) else .isFalse (by simp [h])
  | .error x, .error y =>
    if h : x = y then .isTrue (by rw [h]) else .isFalse (by simp [h])
  | .ok _, .error _ => .isFalse (by simp)
  | .error _, .ok _ => .isFalse (by simp)

/-- Message raised when a multi-element manual list holds a
non-integer-valued element; text pinned by
`test_integration_reclassify_index_failures`. -/
def listErrMsg (vs : List ManualVal) : String :=
  "_parse_manual_list expected a list of integers, but the input is " ++ pyReprList vs

/-- Message raised when a single manual value is neither integers nor an
existing filename; text pinned by
`test_integration_reclassify_index_failures`. -/
def fileErrMsg (vs : List ManualVal) : String :=
  "_parse_manual_list expected integers or a filename, but the input is " ++ pyReprList vs

/-- Modelled from the spec: the Manual-List Parser (`_parse_manual_list`,
not part of the excerpt).  Accepts an absent/empty list, a single value
(an existing CSV path, a comma/whitespace-delimited string, or one
integer-valued number) or a sequence of integer-valued elements, and
normalizes the input to a sorted deduplicated list of indices; error
classes and messages are those asserted by the integration tests. -/
def parse_manual_list (fs : FileSystem) (manual_list : Option (List ManualVal)) :
    Except PyError (List Nat) :=
  match manual_list with
  | none => .ok []
  | some [] => .ok []
  | some [v] =>
    match v with
    | .str s =>
      match fs.lookup s with
      | some contents => .ok (sortedDedup contents)
      | none =>
        match seqOption ((delimTokens s).map strToNat?) with
        | some ns => .ok (sortedDedup ns)
        | none => .error ⟨.valueError, fileErrMsg [v]⟩
    | .int n =>
      if 0 ≤ n then .ok [n.toNat] else .error ⟨.valueError, fileErrMsg [v]⟩
    | .float _ true iv =>
      if 0 ≤ iv then .ok [iv.toNat] else .error ⟨.valueError, fileErrMsg [v]⟩
    | .float _ false _ => .error ⟨.valueError, fileErrMsg [v]⟩
  | some vs =>
    match seqOption (vs.map ManualVal.asInt) with
    | some ns =>
      if ns.all (fun n => decide (0 ≤ n)) then .ok (sortedDedup (ns.map Int.toNat))
      else .error ⟨.valueError, listErrMsg vs⟩
    | none => .error ⟨.valueError, listErrMsg vs⟩

/-- Wall-clock time of a run, to second precision. -/
structure Timestamp where
  year : Nat
  month : Nat
  day : Nat
  hour : Nat
  minute : Nat
  second : Nat
  deriving DecidableEq

/-- A realizable timestamp: four-digit year in the second or third
millennium, all other fields two digits wide. -/
abbrev Timestamp.valid (t : Timestamp) : Prop :=
  1000 ≤ t.year ∧ t.year < 3000 ∧ t.month < 100 ∧ t.day < 100 ∧
    t.hour < 100 ∧ t.minute < 100 ∧ t.second < 100

/-- The character of a decimal digit. -/
def digitChar (n : Nat) : Char := Char.ofNat (48 + n % 10)

/-- Two-digit zero-padded rendering. -/
def pad2 (n : Nat) : List Char := [digitChar (n / 10), digitChar n]

/-- Four-digit zero-padded rendering. -/
def year4 (n : Nat) : List Char :=
  [digitChar (n / 1000), digitChar (n / 100), digitChar (n / 10), digitChar n]

/-- Modelled from the spec: the append-only run log file written by each
run, named `tedana_<ISO8601-like timestamp>.tsv` (the writer itself is not
part of the excerpt). -/
def logFileName (t : Timestamp) : String :=
  ⟨['t', 'e', 'd', 'a', 'n', 'a', '_'] ++ year4 t.year ++ ['-'] ++ pad2 t.month ++
    ['-'] ++ pad2 t.day ++ ['T'] ++ pad2 t.hour ++ pad2 t.minute ++ pad2 t.second ++
    ['.', 't', 's', 'v']⟩

/-- Is the character one of the year-initial digits `[12]`? -/
def isYearStart (c : Char) : Bool := c == '1' || c == '2'

/-- The log-file name check of `check_integration_outputs`: a faithful
matcher for the anchored regular expression
`tedana_[12][0-9]{3}-[0-9]{2}-[0-9]{2}T[0-9]{2}[0-9]{2}[0-9]{2}.tsv`
(the dot before `tsv` matches any character). -/
def log_regex_match (s : String) : Bool :=
  match s.data with
  | c0 :: c1 :: c2 :: c3 :: c4 :: c5 :: c6 ::
      y1 :: y2 :: y3 :: y4 :: s1 :: mo1 :: mo2 :: s2 :: d1 :: d2 :: s3 ::
      h1 :: h2 :: mi1 :: mi2 :: se1 :: se2 :: _ :: t1 :: t2 :: t3 :: [] =>
    (c0 == 't') && (c1 == 'e') && (c2 == 'd') && (c3 == 'a') && (c4 == 'n') &&
      (c5 == 'a') && (c6 == '_') &&
      isYearStart y1 && y2.isDigit && y3.isDigit && y4.isDigit &&
      (s1 == '-') && mo1.isDigit && mo2.isDigit &&
      (s2 == '-') && d1.isDigit && d2.isDigit &&
      (s3 == 'T') && h1.isDigit && h2.isDigit && mi1.isDigit && mi2.isDigit &&
      se1.isDigit && se2.isDigit &&
      (t1 == 't') && (t2 == 's') && (t3 == 'v')
  | _ => false

/-- The persisted registry: a mapping from logical file roles to relative
paths plus the monotonically growing log of timestamped run events. -/
structure Registry where
  roles : List (String × Path)
  logs : List Timestamp
  deriving DecidableEq

/-- `lookup(role_name)`: the path recorded for a role, or a
`KeyNotFound`-class failure. -/
def Registry.lookup (r : Registry) (role : String) : Except PyError Path :=
  match r.roles.lookup role with
  | some p => .ok p
  | none => .error ⟨.keyError, role⟩

/-- `record(role_name, path)`: insert or update an entry. -/
def Registry.record (r : Registry) (role : String) (p : Path) : Registry :=
  ⟨(role, p) :: r.roles.filter (fun e => !(e.1 == role)), r.logs⟩

/-- `append_log(event)`: add a timestamped entry, never touching prior
entries. -/
def Registry.append_log (r : Registry) (t : Timestamp) : Registry :=
  ⟨r.roles, r.logs ++ [t]⟩

/-- The state of an output directory: file names present, plus the parsed
registry and metrics table it persists, when present. -/
structure DirState where
  files : List String
  registry : Option Registry
  table : Option MetricsTable
  deriving DecidableEq

/-- A fresh (empty or just-created) output directory. -/
def DirState.empty : DirState := ⟨[], none, none⟩

/-- Write a file name into a directory listing, a no-op if already there. -/
def insertFile (f : String) (fs : List String) : List String :=
  if f ∈ fs then fs else fs ++ [f]

/-- Write a batch of file names into a directory listing. -/
def writeFiles (new : List String) (fs : List String) : List String :=
  new.foldl (fun acc f => insertFile f acc) fs

/-- The non-log files a reclassification run persists. -/
def reclassifyOutputFiles : List String :=
  ["desc-tedana_registry.json", "desc-tedana_metrics.tsv"]

/-- The warning logged when no component remains accepted; text pinned by
`test_integration_reclassify_no_bold`. -/
def noAcceptedWarning : String :=
  "No accepted components remaining after manual classification!"

/-- Modelled from the spec: the manual-override decision step of the
Decision Engine (the engine module is not part of the excerpt).  Manual
accept wins, then manual reject; untouched components keep their prior
classification. -/
def applyOverrides (acc rej : List Nat) (table : MetricsTable) : MetricsTable :=
  table.map fun c =>
    if c.index ∈ acc then
      { c with classification := .accepted, rationale := c.rationale ++ ["manual reclassify"] }
    else if c.index ∈ rej then
      { c with classification := .rejected, rationale := c.rationale ++ ["manual reclassify"] }
    else c

/-- The result of a successful run: the persisted directory plus the
non-fatal diagnostics emitted along the way. -/
structure RunOutput where
  dir : DirState
  warnings : List String
  deriving DecidableEq

/-- Modelled from the spec: the Reclassification Workflow
(`ica_reclassify_workflow`, not part of the excerpt).  Loads the table,
parses and validates the manual override sets (conflict and range checks
before any mutation), re-applies the manual decision step, and persists
the new table, registry and a timestamped log entry; error classes and
messages are those asserted by the integration tests. -/
def ica_reclassify_workflow (fs : FileSystem) (table : MetricsTable)
    (accept reject : Option (List ManualVal)) (out : DirState)
    (overwrite : Bool) (ts : Timestamp) : Except PyError RunOutput :=
  match parse_manual_list fs accept with
  | .error e => .error e
  | .ok acc =>
    match parse_manual_list fs reject with
    | .error e => .error e
    | .ok rej =>
      if acc = [] ∧ rej = [] then
        .error ⟨.valueError, "Must manually accept or reject components"⟩
      else
        let conflict := acc.filter (fun i => decide (i ∈ rej))
        if conflict = [] then
          if ((acc ++ rej).all (fun i => table.any (fun c => decide (c.index = i)))) then
            if out.registry.isSome ∧ ¬ overwrite then
              .error ⟨.valueError,
                "Output directory already contains a tedana registry; use overwrite"⟩
            else
              let newTable := applyOverrides acc rej table
              let warns :=
                if newTable.all (fun c => decide (c.classification ≠ .accepted)) then
                  [noAcceptedWarning]
                else []
              let oldLogs := (out.registry.map Registry.logs).getD []
              let reg : Registry :=
                ⟨[("ICA metrics tsv", "desc-tedana_metrics.tsv")], oldLogs ++ [ts]⟩
              .ok ⟨⟨writeFiles (reclassifyOutputFiles ++ [logFileName ts]) out.files,
                some reg, some newTable⟩, warns⟩
          else
            .error ⟨.valueError,
              "Manual classification includes component indices absent from the table: " ++
                reprNatList ((acc ++ rej).filter
                  (fun i => !(table.any (fun c => decide (c.index = i)))))⟩
        else
          .error ⟨.valueError,
            "The following components were both accepted and rejected: " ++
              reprNatList conflict⟩

/-- The output directory after a run: unchanged when the run failed. -/
def resultDir (r : Except PyError RunOutput) (out : DirState) : DirState :=
  match r with
  | .ok o => o.dir
  | .error _ => out

/-- Modelled from the spec: the `ica_reclassify` command line entry point
(not part of the excerpt).  Argument values arrive as strings; a raised
error becomes a non-zero return code and an exception line on stderr. -/
def ica_reclassify_cli (fs : FileSystem) (table : MetricsTable)
    (manacc manrej : Option (List String)) (out : DirState)
    (overwrite : Bool) (ts : Timestamp) : Nat × DirState × String :=
  match ica_reclassify_workflow fs table (manacc.map (fun l => l.map ManualVal.str))
      (manrej.map (fun l => l.map ManualVal.str)) out overwrite ts with
  | .ok o => (0, o.dir, "")
  | .error e => (1, out, e.kind.pyName ++ ": " ++ e.msg)

/-- Run the workflow once per timestamp, `overwrite` set, stopping at the
first failure. -/
def run_n_times (fs : FileSystem) (table : MetricsTable)
    (accept reject : Option (List ManualVal)) :
    DirState → List Timestamp → Except PyError DirState
  | out, [] => .ok out
  | out, ts :: rest =>
    match ica_reclassify_workflow fs table accept reject out true ts with
    | .error e => .error e
    | .ok o => run_n_times fs table accept reject o.dir rest

/-- String containment, used to state that an error message names a value:
`pat` occurs contiguously inside `s`. -/
def strContains (s pat : String) : Prop :=
  ∃ l r : List Char, l ++ pat.data ++ r = s.data

/-- A value stored in the on-disk registry file: a single relative path or
a list role. -/
inductive RegVal
  | file (p : Path)
  | list (ps : List Path)
  deriving DecidableEq

/-- The local test dataset: the parsed registry plus the files that
actually exist on disk under the dataset directory. -/
structure Dataset where
  registry : List (String × RegVal)
  files : List Path
  deriving DecidableEq

/-- The existence check of `guarantee_reclassify_data`: every
non-list-valued registry entry must name a file present on disk. -/
def allPresent (d : Dataset) : Bool :=
  d.registry.all fun rv =>
    match rv.2 with
    | .file p => decide (p ∈ d.files)
    | .list _ => true

/-- `guarantee_reclassify_data` from `test_integration.py`: check that
every file referenced by the loaded registry exists; otherwise delete the
stale local copy and re-download (`fresh` is the dataset state
`download_test_data` re-acquires), then check again.  The fuel argument
bounds the recursion of the source. -/
def guarantee_reclassify_data (fresh : Dataset) : Nat → Dataset → Option Dataset
  | 0, _ => none
  | n + 1, d =>
    if allPresent d then some d else guarantee_reclassify_data fresh n fresh

/-- The output directory produced by a sequence of successful runs with
the given override sets: empty before the first run, then the two fixed
output files plus one log file and one registry log entry per run. -/
def dirAfter (acc rej : List Nat) (table : MetricsTable) :
    List Timestamp → DirState
  | [] => DirState.empty
  | done =>
    ⟨reclassifyOutputFiles ++ done.map logFileName,
      some ⟨[("ICA metrics tsv", "desc-tedana_metrics.tsv")], done⟩,
      some (applyOverrides acc rej table)⟩

/-- The diagnostics a run with the given override sets emits: the
no-accepted warning exactly when no component remains accepted. -/
def warnAfter (acc rej : List Nat) (table : MetricsTable) : List String :=
  if (applyOverrides acc rej table).all
      (fun c => decide (c.classification ≠ .accepted)) then
    [noAcceptedWarning]
  else []

/-- The exception class a parser result failed with, if it failed. -/
def errKindOf (r : Except PyError (List Nat)) : Option ErrKind :=
  match r with
  | .error e => some e.kind
  | .ok _ => none

theorem digitChar_isDigit (n : Nat) : (digitChar n).isDigit = true := by
  have h : n % 10 < 10 := Nat.mod_lt _ (by norm_num)
  have key : ∀ m, m < 10 → (Char.ofNat (48 + m)).isDigit = true := by decide
  exact key _ h

theorem isYearStart_digitChar {y : Nat} (h1 : 1000 ≤ y) (h2 : y < 3000) :
    isYearStart (digitChar (y / 1000)) = true := by
  have h : y / 1000 = 1 ∨ y / 1000 = 2 := by omega
  rcases h with h | h <;> rw [h] <;> decide

/-- A log file written by a run at a realizable time matches the log-name
regular expression of `check_integration_outputs`. -/
theorem log_regex_match_logFileName (t : Timestamp) (h : t.valid) :
    log_regex_match (logFileName t) = true := by
  obtain ⟨h1, h2, -, -, -, -, -⟩ := h
  simp [logFileName, year4, pad2, List.cons_append, List.nil_append,
    log_regex_match, digitChar_isDigit, isYearStart_digitChar h1 h2]

theorem logFileName_head (t : Timestamp) : (logFileName t).data.head? = some 't' := rfl

theorem logFileName_ne_registry (t : Timestamp) :
    logFileName t ≠ "desc-tedana_registry.json" := by
  intro h
  have h2 := logFileName_head t
  rw [h] at h2
  exact absurd h2 (by decide)

theorem logFileName_ne_metrics (t : Timestamp) :
    logFileName t ≠ "desc-tedana_metrics.tsv" := by
  intro h
  have h2 := logFileName_head t
  rw [h] at h2
  exact absurd h2 (by decide)

/-- Writing the outputs of a run into a fresh directory. -/
theorem files_after_first_run (ts : Timestamp) :
    writeFiles (reclassifyOutputFiles ++ [logFileName ts]) [] =
      ["desc-tedana_registry.json", "desc-tedana_metrics.tsv", logFileName ts] := by
  have h1 := logFileName_ne_registry ts
  have h2 := logFileName_ne_metrics ts
  have h3 : ("desc-tedana_metrics.tsv" : String) ≠ "desc-tedana_registry.json" := by decide
  simp [writeFiles, reclassifyOutputFiles, insertFile, List.foldl, h1, h2, h3]

/-- Writing the outputs of a run into a directory already produced by
earlier runs: the fixed files are deduplicated, the fresh log appends. -/
theorem files_after_later_run (ts : Timestamp) (names : List String)
    (h : logFileName ts ∉ names) :
    writeFiles (reclassifyOutputFiles ++ [logFileName ts])
      ("desc-tedana_registry.json" :: "desc-tedana_metrics.tsv" :: names) =
      "desc-tedana_registry.json" :: "desc-tedana_metrics.tsv" ::
        (names ++ [logFileName ts]) := by
  have h1 := logFileName_ne_registry ts
  have h2 := logFileName_ne_metrics ts
  have h3 : ("desc-tedana_metrics.tsv" : String) ≠ "desc-tedana_registry.json" := by decide
  simp [writeFiles, reclassifyOutputFiles, insertFile, List.foldl, h1, h2, h3, h]

/-- The success path of the workflow: parsed override sets, nonempty,
conflict-free, in range and no registry collision yield the persisted
directory, with the no-accepted warning exactly when no component remains
accepted. -/
theorem workflow_success (fs : FileSystem) (table : MetricsTable)
    (accept reject : Option (List ManualVal)) (out : DirState) (overwrite : Bool)
    (ts : Timestamp) (acc rej : List Nat)
    (Hacc : parse_manual_list fs accept = .ok acc)
    (Hrej : parse_manual_list fs reject = .ok rej)
    (Hne : ¬(acc = [] ∧ rej = []))
    (Hdisj : acc.filter (fun i => decide (i ∈ rej)) = [])
    (Hrange : ((acc ++ rej).all (fun i => table.any (fun c => decide (c.index = i)))) = true)
    (Hcol : ¬(out.registry.isSome ∧ ¬ overwrite)) :
    ica_reclassify_workflow fs table accept reject out overwrite ts =
      .ok ⟨⟨writeFiles (reclassifyOutputFiles ++ [logFileName ts]) out.files,
        some ⟨[("ICA metrics tsv", "desc-tedana_metrics.tsv")],
          ((out.registry.map Registry.logs).getD []) ++ [ts]⟩,
        some (applyOverrides acc rej table)⟩,
        if (applyOverrides acc rej table).all (fun c => decide (c.classification ≠ .accepted))
          then [noAcceptedWarning] else []⟩ := by
  unfold ica_reclassify_workflow
  rw [Hacc, Hrej]
  simp only [if_neg Hne, if_pos Hdisj, if_pos Hrange, if_neg Hcol]

/-- Rejecting every component leaves none accepted. -/
theorem applyOverrides_reject_all {rej : List Nat} {table : MetricsTable}
    (Hcover : ∀ c ∈ table, c.index ∈ rej) :
    (applyOverrides [] rej table).all
      (fun c => decide (c.classification ≠ .accepted)) = true := by
  simp only [applyOverrides, List.all_map, List.all_eq_true]
  intro c hc
  simp [Hcover c hc]

theorem seqOption_none {α : Type} {l : List (Option α)} (h : none ∈ l) :
    seqOption l = none := by
  induction l with
  | nil => cases h
  | cons a rest ih =>
    rcases List.mem_cons.mp h with h' | h'
    · rw [← h']
      rfl
    · cases a with
      | none => rfl
      | some x => simp [seqOption, ih h']

theorem joinSep_contains {s : String} {l : List String} (h : s ∈ l) :
    ∃ u v : List Char, u ++ s.data ++ v = (joinSep l).data := by
  induction l with
  | nil => cases h
  | cons a rest ih =>
    cases rest with
    | nil =>
      rcases List.mem_singleton.mp h with rfl
      exact ⟨[], [], by simp [joinSep]⟩
    | cons b r2 =>
      rcases List.mem_cons.mp h with rfl | h2
      · exact ⟨[], (", " ++ joinSep (b :: r2)).data,
          by simp [joinSep, String.data_append]⟩
      · obtain ⟨u, v, huv⟩ := ih h2
        exact ⟨(a ++ ", ").data ++ u, v,
          by simp [joinSep, String.data_append, List.append_assoc, huv]⟩

/-- The Python rendering of a manual list names each of its elements. -/
theorem pyReprList_contains {v : ManualVal} {vs : List ManualVal} (h : v ∈ vs) :
    strContains (pyReprList vs) (pyRepr v) := by
  obtain ⟨u, w, huw⟩ := joinSep_contains (List.mem_map_of_mem pyRepr h)
  exact ⟨("[" : String).data ++ u, w ++ ("]" : String).data,
    by simp [pyReprList, String.data_append, List.append_assoc, ← huw]⟩

theorem strContains_append_left (p : String) {s pat : String}
    (h : strContains s pat) : strContains (p ++ s) pat := by
  obtain ⟨u, v, huv⟩ := h
  exact ⟨p.data ++ u, v, by simp [String.data_append, List.append_assoc, huv]⟩

/-- C10: invoking the reclassification workflow with neither a manual
accept set nor a manual reject set fails with a ValueError whose message
contains "Must manually accept or reject"; the CLI exits non-zero with
that exception line on stderr and leaves the output directory untouched. -/
theorem C10_insufficient_args (fs : FileSystem) (table : MetricsTable)
    (out : DirState) (overwrite : Bool) (ts : Timestamp) :
    ∃ e, ica_reclassify_workflow fs table none none out overwrite ts = .error e ∧
      e.kind = .valueError ∧ strContains e.msg "Must manually accept or reject" ∧
      resultDir (ica_reclassify_workflow fs table none none out overwrite ts) out = out ∧
      (ica_reclassify_cli fs table none none out overwrite ts).1 ≠ 0 ∧
      (ica_reclassify_cli fs table none none out overwrite ts).2.1 = out ∧
      strContains (ica_reclassify_cli fs table none none out overwrite ts).2.2
        "ValueError: Must manually accept or reject" := by
  have hw : ica_reclassify_workflow fs table none none out overwrite ts =
      .error ⟨.valueError, "Must manually accept or reject components"⟩ := rfl
  have hcli : ica_reclassify_cli fs table none none out overwrite ts =
      (1, out, ErrKind.valueError.pyName ++ ": " ++
        "Must manually accept or reject components") := rfl
  refine ⟨_, hw, rfl, ⟨[], (" components" : String).data, by decide⟩, ?_, ?_, ?_, ?_⟩
  · simp [resultDir, hw]
  · rw [hcli]
    exact Nat.one_ne_zero
  · rw [hcli]
  · rw [hcli]
    show strContains (ErrKind.valueError.pyName ++ ": " ++
      "Must manually accept or reject components") "ValueError: Must manually accept or reject"
    exact ⟨[], (" components" : String).data, by decide⟩

/-- C2: when the accept and reject override sets share an index, the
workflow fails with a ValueError naming the offending indices before any
mutation, and the output directory is untouched. -/
theorem C2_conflict (fs : FileSystem) (table : MetricsTable)
    (accept reject : Option (List ManualVal)) (acc rej : List Nat) (i : Nat)
    (out : DirState) (overwrite : Bool) (ts : Timestamp)
    (Hacc : parse_manual_list fs accept = .ok acc)
    (Hrej : parse_manual_list fs reject = .ok rej)
    (Hia : i ∈ acc) (Hir : i ∈ rej) :
    ∃ e, ica_reclassify_workflow fs table accept reject out overwrite ts = .error e ∧
      e.kind = .valueError ∧
      (∃ conflict, conflict ≠ [] ∧ i ∈ conflict ∧
        (∀ j ∈ conflict, j ∈ acc ∧ j ∈ rej) ∧
        e.msg = "The following components were both accepted and rejected: " ++
          reprNatList conflict) ∧
      resultDir (ica_reclassify_workflow fs table accept reject out overwrite ts) out
        = out := by
  have hconf : i ∈ acc.filter (fun j => decide (j ∈ rej)) :=
    List.mem_filter.mpr ⟨Hia, by simpa using Hir⟩
  have hne : acc.filter (fun j => decide (j ∈ rej)) ≠ [] := List.ne_nil_of_mem hconf
  have haccne : ¬(acc = [] ∧ rej = []) := by
    rintro ⟨h1, -⟩
    rw [h1] at Hia
    cases Hia
  have hw : ica_reclassify_workflow fs table accept reject out overwrite ts =
      .error ⟨.valueError,
        "The following components were both accepted and rejected: " ++
          reprNatList (acc.filter (fun j => decide (j ∈ rej)))⟩ := by
    unfold ica_reclassify_workflow
    rw [Hacc, Hrej]
    simp only [if_neg haccne, if_neg hne]
  refine ⟨_, hw, rfl,
    ⟨acc.filter (fun j => decide (j ∈ rej)), hne, hconf, ?_, rfl⟩, ?_⟩
  · intro j hj
    have h2 := List.mem_filter.mp hj
    exact ⟨h2.1, by simpa using h2.2⟩
  · simp [resultDir, hw]

/-- Witness for C2 at a concrete conflicting input. -/
theorem C2_witness :
    ∃ e, ica_reclassify_workflow [] [] (some [ManualVal.int 1]) (some [ManualVal.int 1])
      DirState.empty false ⟨2024, 1, 2, 3, 4, 5⟩ = .error e ∧
      e.kind = .valueError ∧
      (∃ conflict, conflict ≠ [] ∧ 1 ∈ conflict ∧
        (∀ j ∈ conflict, j ∈ [1] ∧ j ∈ [1]) ∧
        e.msg = "The following components were both accepted and rejected: " ++
          reprNatList conflict) ∧
      resultDir (ica_reclassify_workflow [] [] (some [ManualVal.int 1])
        (some [ManualVal.int 1]) DirState.empty false ⟨2024, 1, 2, 3, 4, 5⟩)
        DirState.empty = DirState.empty :=
  C2_conflict [] [] (some [ManualVal.int 1]) (some [ManualVal.int 1]) [1] [1] 1
    DirState.empty false ⟨2024, 1, 2, 3, 4, 5⟩ rfl rfl (by decide) (by decide)

/-- C4 counterexample: on `[1, 2.5, 3]` the parser raises a ValueError,
not a TypeError-class error, so the claimed error class is wrong. -/
theorem C4_counterexample :
    parse_manual_list []
      (some [ManualVal.int 1, ManualVal.float "2.5" false 0, ManualVal.int 3]) =
      .error ⟨.valueError,
        "_parse_manual_list expected a list of integers, but the input is [1, 2.5, 3]"⟩ ∧
    errKindOf (parse_manual_list []
      (some [ManualVal.int 1, ManualVal.float "2.5" false 0, ManualVal.int 3])) ≠
      some ErrKind.typeError :=
  ⟨rfl, by decide⟩

/-- C4 amended: for every sequence of numeric values containing a
non-integer-valued element, the parser fails with a ValueError whose
message states the received value. -/
theorem C4_amended (fs : FileSystem) (vs : List ManualVal) (v : ManualVal)
    (Hnum : ∀ u ∈ vs, u.isNumeric = true) (Hv : v ∈ vs) (Hbad : v.asInt = none) :
    ∃ e, parse_manual_list fs (some vs) = .error e ∧ e.kind = .valueError ∧
      strContains e.msg (pyRepr v) := by
  cases vs with
  | nil => cases Hv
  | cons v1 rest =>
    cases rest with
    | nil =>
      rcases List.mem_singleton.mp Hv with rfl
      cases v with
      | int n => simp [ManualVal.asInt] at Hbad
      | str s =>
        have h := Hnum (ManualVal.str s) (by simp)
        simp [ManualVal.isNumeric] at h
      | float pr b iv =>
        cases b with
        | true => simp [ManualVal.asInt] at Hbad
        | false =>
          refine ⟨⟨.valueError, fileErrMsg [ManualVal.float pr false iv]⟩, rfl, rfl, ?_⟩
          exact strContains_append_left _ (pyReprList_contains (by simp))
    | cons v2 rest2 =>
      have hmem : (none : Option Int) ∈ (v1 :: v2 :: rest2).map ManualVal.asInt := by
        rw [← Hbad]
        exact List.mem_map_of_mem ManualVal.asInt Hv
      have hseq := seqOption_none hmem
      refine ⟨⟨.valueError, listErrMsg (v1 :: v2 :: rest2)⟩, ?_, rfl, ?_⟩
      · simp only [parse_manual_list, hseq]
      · exact strContains_append_left _ (pyReprList_contains Hv)

/-- Witness for C4 amended at the input `[1, 2.5, 3]`. -/
theorem C4_witness :
    ∃ e, parse_manual_list []
      (some [ManualVal.int 1, ManualVal.float "2.5" false 0, ManualVal.int 3]) =
      .error e ∧ e.kind = .valueError ∧
      strContains e.msg (pyRepr (ManualVal.float "2.5" false 0)) :=
  C4_amended [] [ManualVal.int 1, ManualVal.float "2.5" false 0, ManualVal.int 3]
    (ManualVal.float "2.5" false 0) (by decide) (by decide) rfl

/-- C6 counterexample: the failure on `[2.5]` carries the same exception
class (ValueError) as the non-integer-sequence failure on `[1, 2.5, 3]`,
so the error kinds are not distinct; only the message variant differs,
and a multi-element list with a non-integer gets the other variant. -/
theorem C6_counterexample :
    errKindOf (parse_manual_list [] (some [ManualVal.float "2.5" false 0])) =
      errKindOf (parse_manual_list []
        (some [ManualVal.int 1, ManualVal.float "2.5" false 0, ManualVal.int 3])) ∧
    errKindOf (parse_manual_list [] (some [ManualVal.float "2.5" false 0])) =
      some ErrKind.valueError ∧
    parse_manual_list [] (some [ManualVal.float "2.5" false 0]) =
      .error ⟨.valueError, fileErrMsg [ManualVal.float "2.5" false 0]⟩ ∧
    parse_manual_list []
      (some [ManualVal.int 1, ManualVal.float "2.5" false 0, ManualVal.int 3]) =
      .error ⟨.valueError,
        listErrMsg [ManualVal.int 1, ManualVal.float "2.5" false 0, ManualVal.int 3]⟩ :=
  ⟨rfl, rfl, rfl, rfl⟩

/-- The two parser error messages are distinct texts for the same input. -/
theorem fileErr_ne_listErr (vs : List ManualVal) : fileErrMsg vs ≠ listErrMsg vs := by
  intro h
  have h2 := congrArg (fun s => s.data.length) h
  simp [fileErrMsg, listErrMsg, String.data_append] at h2
  omega

/-- C6 amended: every single value that is neither an integer-valued
number, nor a delimited string of integers, nor an existing path fails
with the same ValueError class as the non-integer-sequence error but a
distinct error message (the "expected integers or a filename" variant),
and the message includes the offending value. -/
theorem C6_amended (fs : FileSystem) (v : ManualVal)
    (Hnum : v.asInt = none)
    (Hpath : ∀ s, v = ManualVal.str s → fs.lookup s = none)
    (Hdelim : ∀ s, v = ManualVal.str s →
      seqOption ((delimTokens s).map strToNat?) = none) :
    ∃ e, parse_manual_list fs (some [v]) = .error e ∧
      e.kind = .valueError ∧
      e.msg = fileErrMsg [v] ∧
      strContains e.msg (pyRepr v) ∧
      fileErrMsg [v] ≠ listErrMsg [v] := by
  cases v with
  | int n => simp [ManualVal.asInt] at Hnum
  | float pr b iv =>
    cases b with
    | true => simp [ManualVal.asInt] at Hnum
    | false =>
      refine ⟨_, rfl, rfl, rfl, ?_, fileErr_ne_listErr _⟩
      have hmem : ManualVal.float pr false iv ∈ [ManualVal.float pr false iv] := by
        simp
      exact strContains_append_left _ (pyReprList_contains hmem)
  | str s =>
    have hp := Hpath s rfl
    have hd := Hdelim s rfl
    have hparse : parse_manual_list fs (some [ManualVal.str s]) =
        .error ⟨.valueError, fileErrMsg [ManualVal.str s]⟩ := by
      simp only [parse_manual_list, hp, hd]
    refine ⟨_, hparse, rfl, rfl, ?_, fileErr_ne_listErr _⟩
    have hmem : ManualVal.str s ∈ [ManualVal.str s] := by simp
    exact strContains_append_left _ (pyReprList_contains hmem)

/-- Witness for C6 amended at a non-numeric, non-path string singleton. -/
theorem C6_witness :
    ∃ e, parse_manual_list [] (some [ManualVal.str "garbage"]) = .error e ∧
      e.kind = .valueError ∧
      e.msg = fileErrMsg [ManualVal.str "garbage"] ∧
      strContains e.msg (pyRepr (ManualVal.str "garbage")) ∧
      fileErrMsg [ManualVal.str "garbage"] ≠ listErrMsg [ManualVal.str "garbage"] :=
  C6_amended [] (ManualVal.str "garbage") rfl (fun _ _ => rfl)
    (fun s h => by
      injection h with h2
      rw [← h2]
      rfl)

/-- C5: a trailing-delimiter string parses to exactly the listed indices
with no spurious empty token, and such input is accepted by the
reclassification CLI with a successful exit. -/
theorem C5_trailing_delimiters (fs : FileSystem) (table : MetricsTable) (ts : Timestamp)
    (Hp1 : fs.lookup "4,5,6," = none) (Hp2 : fs.lookup "1,2,3" = none)
    (Hp3 : fs.lookup "1 2 3" = none)
    (Hrange : ((([1, 2, 3] : List Nat) ++ [4, 5, 6]).all
      (fun i => table.any (fun c => decide (c.index = i)))) = true) :
    parse_manual_list fs (some [ManualVal.str "4,5,6,"]) = .ok [4, 5, 6] ∧
    parse_manual_list fs (some [ManualVal.str "1 2 3"]) = .ok [1, 2, 3] ∧
    (ica_reclassify_cli fs table (some ["1,2,3"]) (some ["4,5,6,"])
      DirState.empty false ts).1 = 0 := by
  have hp46 : parse_manual_list fs (some [ManualVal.str "4,5,6,"]) = .ok [4, 5, 6] := by
    simp only [parse_manual_list, Hp1]
    rfl
  have hp123 : parse_manual_list fs (some [ManualVal.str "1,2,3"]) = .ok [1, 2, 3] := by
    simp only [parse_manual_list, Hp2]
    rfl
  have hsp : parse_manual_list fs (some [ManualVal.str "1 2 3"]) = .ok [1, 2, 3] := by
    simp only [parse_manual_list, Hp3]
    rfl
  refine ⟨hp46, hsp, ?_⟩
  have hw := workflow_success fs table (some [ManualVal.str "1,2,3"])
    (some [ManualVal.str "4,5,6,"]) DirState.empty false ts [1, 2, 3] [4, 5, 6]
    hp123 hp46 (by simp) rfl Hrange (by simp [DirState.empty])
  simp [ica_reclassify_cli, hw]

/-- Witness for C5 at a concrete table holding components 1 through 6. -/
theorem C5_witness :
    parse_manual_list [] (some [ManualVal.str "4,5,6,"]) = .ok [4, 5, 6] ∧
    parse_manual_list [] (some [ManualVal.str "1 2 3"]) = .ok [1, 2, 3] ∧
    (ica_reclassify_cli []
      [⟨1, .unclassified, []⟩, ⟨2, .unclassified, []⟩, ⟨3, .unclassified, []⟩,
        ⟨4, .unclassified, []⟩, ⟨5, .unclassified, []⟩, ⟨6, .unclassified, []⟩]
      (some ["1,2,3"]) (some ["4,5,6,"]) DirState.empty false
      ⟨2024, 1, 2, 3, 4, 5⟩).1 = 0 :=
  C5_trailing_delimiters []
    [⟨1, .unclassified, []⟩, ⟨2, .unclassified, []⟩, ⟨3, .unclassified, []⟩,
      ⟨4, .unclassified, []⟩, ⟨5, .unclassified, []⟩, ⟨6, .unclassified, []⟩]
    ⟨2024, 1, 2, 3, 4, 5⟩ rfl rfl rfl (by decide)

/-- C3: when the reject set covers every component, the workflow still
succeeds with the "No accepted components remaining" warning, the
persisted table has zero accepted rows, and all expected output files are
written. -/
theorem C3_zero_accepted (fs : FileSystem) (table : MetricsTable)
    (reject : Option (List ManualVal)) (rej : List Nat) (ts : Timestamp)
    (Hrej : parse_manual_list fs reject = .ok rej)
    (Hne : rej ≠ [])
    (Hrange : (rej.all (fun i => table.any (fun c => decide (c.index = i)))) = true)
    (Hcover : ∀ c ∈ table, c.index ∈ rej) :
    ∃ o, ica_reclassify_workflow fs table none reject DirState.empty false ts = .ok o ∧
      o.warnings = [noAcceptedWarning] ∧
      (∃ tbl, o.dir.table = some tbl ∧
        tbl.countP (fun c => decide (c.classification = .accepted)) = 0) ∧
      o.dir.files =
        ["desc-tedana_registry.json", "desc-tedana_metrics.tsv", logFileName ts] := by
  have hw := workflow_success fs table none reject DirState.empty false ts [] rej rfl Hrej
    (by simp [Hne]) rfl (by simpa using Hrange) (by simp [DirState.empty])
  refine ⟨_, hw, ?_, ⟨applyOverrides [] rej table, rfl, ?_⟩, ?_⟩
  · show (if (applyOverrides [] rej table).all
        (fun c => decide (c.classification ≠ .accepted)) = true
      then [noAcceptedWarning] else []) = [noAcceptedWarning]
    rw [if_pos (applyOverrides_reject_all Hcover)]
  · rw [List.countP_eq_zero]
    intro c hc
    have hall := applyOverrides_reject_all Hcover
    rw [List.all_eq_true] at hall
    have h2 := hall c hc
    simp at h2 ⊢
    exact h2
  · show writeFiles (reclassifyOutputFiles ++ [logFileName ts]) DirState.empty.files = _
    rw [show DirState.empty.files = ([] : List String) from rfl, files_after_first_run]

/-- Witness for C3: rejecting both components of a two-component table. -/
theorem C3_witness :
    ∃ o, ica_reclassify_workflow []
      [⟨0, .unclassified, []⟩, ⟨1, .unclassified, []⟩]
      none (some [ManualVal.int 0, ManualVal.int 1]) DirState.empty false
      ⟨2024, 1, 2, 3, 4, 5⟩ = .ok o ∧
      o.warnings = [noAcceptedWarning] ∧
      (∃ tbl, o.dir.table = some tbl ∧
        tbl.countP (fun c => decide (c.classification = .accepted)) = 0) ∧
      o.dir.files =
        ["desc-tedana_registry.json", "desc-tedana_metrics.tsv",
          logFileName ⟨2024, 1, 2, 3, 4, 5⟩] :=
  C3_zero_accepted [] [⟨0, .unclassified, []⟩, ⟨1, .unclassified, []⟩]
    (some [ManualVal.int 0, ManualVal.int 1]) [0, 1] ⟨2024, 1, 2, 3, 4, 5⟩
    rfl (by decide) (by decide) (by decide)

/-- C7: the same override set given as an in-process integer list, as
repeated command-line integers, as one comma-delimited string, or as a
CSV file with a "Components" column, yields the same successful run with
the same output file set. -/
theorem C7_override_forms (fs : FileSystem) (table : MetricsTable) (ts : Timestamp)
    (Hcsv : fs.lookup "accept.csv" = some [1, 2, 3])
    (Hstr : fs.lookup "1,2,3" = none)
    (Hrange : (([1, 2, 3] : List Nat).all
      (fun i => table.any (fun c => decide (c.index = i)))) = true) :
    ∃ o : RunOutput,
      ica_reclassify_workflow fs table
        (some [ManualVal.int 1, ManualVal.int 2, ManualVal.int 3]) none
        DirState.empty false ts = .ok o ∧
      ica_reclassify_workflow fs table
        (some [ManualVal.str "1", ManualVal.str "2", ManualVal.str "3"]) none
        DirState.empty false ts = .ok o ∧
      ica_reclassify_workflow fs table (some [ManualVal.str "1,2,3"]) none
        DirState.empty false ts = .ok o ∧
      ica_reclassify_workflow fs table (some [ManualVal.str "accept.csv"]) none
        DirState.empty false ts = .ok o ∧
      o.dir.files =
        ["desc-tedana_registry.json", "desc-tedana_metrics.tsv", logFileName ts] := by
  have hr : ((([1, 2, 3] : List Nat) ++ []).all
      (fun i => table.any (fun c => decide (c.index = i)))) = true := by
    simpa using Hrange
  have h1 : parse_manual_list fs
      (some [ManualVal.int 1, ManualVal.int 2, ManualVal.int 3]) = .ok [1, 2, 3] := rfl
  have h2 : parse_manual_list fs
      (some [ManualVal.str "1", ManualVal.str "2", ManualVal.str "3"]) = .ok [1, 2, 3] := rfl
  have h3 : parse_manual_list fs (some [ManualVal.str "1,2,3"]) = .ok [1, 2, 3] := by
    simp only [parse_manual_list, Hstr]
    rfl
  have h4 : parse_manual_list fs (some [ManualVal.str "accept.csv"]) = .ok [1, 2, 3] := by
    simp only [parse_manual_list, Hcsv]
    rfl
  have hne : ¬(([1, 2, 3] : List Nat) = [] ∧ ([] : List Nat) = []) := by simp
  have hcol : ¬(DirState.empty.registry.isSome ∧ ¬ false) := by simp [DirState.empty]
  refine ⟨_, workflow_success _ _ _ _ _ _ _ _ _ h1 rfl hne rfl hr hcol,
    workflow_success _ _ _ _ _ _ _ _ _ h2 rfl hne rfl hr hcol,
    workflow_success _ _ _ _ _ _ _ _ _ h3 rfl hne rfl hr hcol,
    workflow_success _ _ _ _ _ _ _ _ _ h4 rfl hne rfl hr hcol, ?_⟩
  show writeFiles (reclassifyOutputFiles ++ [logFileName ts]) DirState.empty.files = _
  rw [show DirState.empty.files = ([] : List String) from rfl, files_after_first_run]

/-- Witness for C7 with a CSV file holding components 1, 2, 3. -/
theorem C7_witness :
    ∃ o : RunOutput,
      ica_reclassify_workflow [("accept.csv", [1, 2, 3])]
        [⟨1, .unclassified, []⟩, ⟨2, .unclassified, []⟩, ⟨3, .unclassified, []⟩]
        (some [ManualVal.int 1, ManualVal.int 2, ManualVal.int 3]) none
        DirState.empty false ⟨2024, 1, 2, 3, 4, 5⟩ = .ok o ∧
      ica_reclassify_workflow [("accept.csv", [1, 2, 3])]
        [⟨1, .unclassified, []⟩, ⟨2, .unclassified, []⟩, ⟨3, .unclassified, []⟩]
        (some [ManualVal.str "1", ManualVal.str "2", ManualVal.str "3"]) none
        DirState.empty false ⟨2024, 1, 2, 3, 4, 5⟩ = .ok o ∧
      ica_reclassify_workflow [("accept.csv", [1, 2, 3])]
        [⟨1, .unclassified, []⟩, ⟨2, .unclassified, []⟩, ⟨3, .unclassified, []⟩]
        (some [ManualVal.str "1,2,3"]) none
        DirState.empty false ⟨2024, 1, 2, 3, 4, 5⟩ = .ok o ∧
      ica_reclassify_workflow [("accept.csv", [1, 2, 3])]
        [⟨1, .unclassified, []⟩, ⟨2, .unclassified, []⟩, ⟨3, .unclassified, []⟩]
        (some [ManualVal.str "accept.csv"]) none
        DirState.empty false ⟨2024, 1, 2, 3, 4, 5⟩ = .ok o ∧
      o.dir.files =
        ["desc-tedana_registry.json", "desc-tedana_metrics.tsv",
          logFileName ⟨2024, 1, 2, 3, 4, 5⟩] :=
  C7_override_forms [("accept.csv", [1, 2, 3])]
    [⟨1, .unclassified, []⟩, ⟨2, .unclassified, []⟩, ⟨3, .unclassified, []⟩]
    ⟨2024, 1, 2, 3, 4, 5⟩ rfl rfl (by decide)

/-- A first run into a fresh directory persists the one-run directory
state, whatever the overwrite flag. -/
theorem workflow_first_dirAfter (fs : FileSystem) (table : MetricsTable)
    (accept reject : Option (List ManualVal)) (acc rej : List Nat) (ow : Bool)
    (t : Timestamp)
    (Hacc : parse_manual_list fs accept = .ok acc)
    (Hrej : parse_manual_list fs reject = .ok rej)
    (Hne : ¬(acc = [] ∧ rej = []))
    (Hdisj : acc.filter (fun i => decide (i ∈ rej)) = [])
    (Hrange : ((acc ++ rej).all (fun i => table.any (fun c => decide (c.index = i)))) = true) :
    ica_reclassify_workflow fs table accept reject DirState.empty ow t =
      .ok ⟨dirAfter acc rej table [t], warnAfter acc rej table⟩ := by
  have hw := workflow_success fs table accept reject DirState.empty ow t acc rej
    Hacc Hrej Hne Hdisj Hrange (by simp [DirState.empty])
  rw [hw]
  rw [show DirState.empty.files = ([] : List String) from rfl, files_after_first_run]
  simp [dirAfter, warnAfter, DirState.empty, reclassifyOutputFiles]

/-- A later run with `overwrite = true` into the directory of earlier
runs deduplicates the fixed outputs and appends one log file and one log
entry. -/
theorem workflow_step_dirAfter (fs : FileSystem) (table : MetricsTable)
    (accept reject : Option (List ManualVal)) (acc rej : List Nat)
    (done : List Timestamp) (t : Timestamp)
    (Hacc : parse_manual_list fs accept = .ok acc)
    (Hrej : parse_manual_list fs reject = .ok rej)
    (Hne : ¬(acc = [] ∧ rej = []))
    (Hdisj : acc.filter (fun i => decide (i ∈ rej)) = [])
    (Hrange : ((acc ++ rej).all (fun i => table.any (fun c => decide (c.index = i)))) = true)
    (Hnotin : logFileName t ∉ done.map logFileName) :
    ica_reclassify_workflow fs table accept reject (dirAfter acc rej table done) true t =
      .ok ⟨dirAfter acc rej table (done ++ [t]), warnAfter acc rej table⟩ := by
  cases done with
  | nil =>
    rw [show dirAfter acc rej table [] = DirState.empty from rfl]
    exact workflow_first_dirAfter fs table accept reject acc rej true t
      Hacc Hrej Hne Hdisj Hrange
  | cons d ds =>
    have hw := workflow_success fs table accept reject (dirAfter acc rej table (d :: ds))
      true t acc rej Hacc Hrej Hne Hdisj Hrange (by simp)
    rw [hw]
    have hfl : (dirAfter acc rej table (d :: ds)).files =
        "desc-tedana_registry.json" :: "desc-tedana_metrics.tsv" ::
          (d :: ds).map logFileName := by
      simp [dirAfter, reclassifyOutputFiles]
    rw [hfl, files_after_later_run t ((d :: ds).map logFileName) Hnotin]
    simp [dirAfter, warnAfter, reclassifyOutputFiles]

/-- C1: two runs on the same output directory, the second with
`overwrite = true`, append a second log entry (the registry then holds
both run events and exactly two log files match the log-name pattern) and
persist identical final classification tables. -/
theorem C1_run_twice (fs : FileSystem) (table : MetricsTable)
    (accept reject : Option (List ManualVal)) (acc rej : List Nat) (ow : Bool)
    (ts1 ts2 : Timestamp)
    (Hacc : parse_manual_list fs accept = .ok acc)
    (Hrej : parse_manual_list fs reject = .ok rej)
    (Hne : ¬(acc = [] ∧ rej = []))
    (Hdisj : acc.filter (fun i => decide (i ∈ rej)) = [])
    (Hrange : ((acc ++ rej).all (fun i => table.any (fun c => decide (c.index = i)))) = true)
    (Hv1 : ts1.valid) (Hv2 : ts2.valid)
    (Hname : logFileName ts1 ≠ logFileName ts2) :
    ica_reclassify_workflow fs table accept reject DirState.empty ow ts1 =
      .ok ⟨dirAfter acc rej table [ts1], warnAfter acc rej table⟩ ∧
    ica_reclassify_workflow fs table accept reject (dirAfter acc rej table [ts1])
      true ts2 =
      .ok ⟨dirAfter acc rej table [ts1, ts2], warnAfter acc rej table⟩ ∧
    (∃ r2 : Registry, (dirAfter acc rej table [ts1, ts2]).registry = some r2 ∧
      r2.logs = [ts1, ts2]) ∧
    ((dirAfter acc rej table [ts1, ts2]).files.filter log_regex_match).length = 2 ∧
    (dirAfter acc rej table [ts1, ts2]).table = (dirAfter acc rej table [ts1]).table ∧
    (dirAfter acc rej table [ts1]).table = some (applyOverrides acc rej table) := by
  have h1 := workflow_first_dirAfter fs table accept reject acc rej ow ts1
    Hacc Hrej Hne Hdisj Hrange
  have hnotin : logFileName ts2 ∉ [ts1].map logFileName := by
    simp only [List.map_cons, List.map_nil, List.mem_singleton]
    exact fun h => Hname h.symm
  have h2 := workflow_step_dirAfter fs table accept reject acc rej [ts1] ts2
    Hacc Hrej Hne Hdisj Hrange hnotin
  have hm1 := log_regex_match_logFileName ts1 Hv1
  have hm2 := log_regex_match_logFileName ts2 Hv2
  have hrf : log_regex_match "desc-tedana_registry.json" = false := by decide
  have hmf : log_regex_match "desc-tedana_metrics.tsv" = false := by decide
  refine ⟨h1, h2, ⟨_, rfl, rfl⟩, ?_, rfl, rfl⟩
  show ((reclassifyOutputFiles ++ [ts1, ts2].map logFileName).filter
    log_regex_match).length = 2
  simp [reclassifyOutputFiles, List.filter, hrf, hmf, hm1, hm2]

/-- Witness for C1 at a concrete registry, table and pair of run times. -/
theorem C1_witness :
    ica_reclassify_workflow [] [⟨1, .unclassified, []⟩] (some [ManualVal.int 1]) none
      DirState.empty false ⟨2024, 1, 2, 3, 4, 5⟩ =
      .ok ⟨dirAfter [1] [] [⟨1, .unclassified, []⟩] [⟨2024, 1, 2, 3, 4, 5⟩],
        warnAfter [1] [] [⟨1, .unclassified, []⟩]⟩ ∧
    ica_reclassify_workflow [] [⟨1, .unclassified, []⟩] (some [ManualVal.int 1]) none
      (dirAfter [1] [] [⟨1, .unclassified, []⟩] [⟨2024, 1, 2, 3, 4, 5⟩])
      true ⟨2024, 1, 2, 3, 4, 6⟩ =
      .ok ⟨dirAfter [1] [] [⟨1, .unclassified, []⟩]
          [⟨2024, 1, 2, 3, 4, 5⟩, ⟨2024, 1, 2, 3, 4, 6⟩],
        warnAfter [1] [] [⟨1, .unclassified, []⟩]⟩ ∧
    (∃ r2 : Registry,
      (dirAfter [1] [] [⟨1, .unclassified, []⟩]
        [⟨2024, 1, 2, 3, 4, 5⟩, ⟨2024, 1, 2, 3, 4, 6⟩]).registry = some r2 ∧
      r2.logs = [⟨2024, 1, 2, 3, 4, 5⟩, ⟨2024, 1, 2, 3, 4, 6⟩]) ∧
    ((dirAfter [1] [] [⟨1, .unclassified, []⟩]
      [⟨2024, 1, 2, 3, 4, 5⟩, ⟨2024, 1, 2, 3, 4, 6⟩]).files.filter
        log_regex_match).length = 2 ∧
    (dirAfter [1] [] [⟨1, .unclassified, []⟩]
      [⟨2024, 1, 2, 3, 4, 5⟩, ⟨2024, 1, 2, 3, 4, 6⟩]).table =
      (dirAfter [1] [] [⟨1, .unclassified, []⟩] [⟨2024, 1, 2, 3, 4, 5⟩]).table ∧
    (dirAfter [1] [] [⟨1, .unclassified, []⟩] [⟨2024, 1, 2, 3, 4, 5⟩]).table =
      some (applyOverrides [1] [] [⟨1, .unclassified, []⟩]) :=
  C1_run_twice [] [⟨1, .unclassified, []⟩] (some [ManualVal.int 1]) none [1] [] false
    ⟨2024, 1, 2, 3, 4, 5⟩ ⟨2024, 1, 2, 3, 4, 6⟩ rfl rfl (by decide) rfl (by decide)
    (by decide) (by decide) (by decide)

/-- Each successful run appends one log file and one log entry, so N runs
from a fresh directory land in the N-run directory state. -/
theorem run_n_times_spec (fs : FileSystem) (table : MetricsTable)
    (accept reject : Option (List ManualVal)) (acc rej : List Nat)
    (Hacc : parse_manual_list fs accept = .ok acc)
    (Hrej : parse_manual_list fs reject = .ok rej)
    (Hne : ¬(acc = [] ∧ rej = []))
    (Hdisj : acc.filter (fun i => decide (i ∈ rej)) = [])
    (Hrange : ((acc ++ rej).all (fun i => table.any (fun c => decide (c.index = i)))) = true) :
    ∀ (tss done : List Timestamp),
      ((done ++ tss).map logFileName).Nodup →
      run_n_times fs table accept reject (dirAfter acc rej table done) tss =
        .ok (dirAfter acc rej table (done ++ tss)) := by
  intro tss
  induction tss with
  | nil =>
    intro done h
    simp [run_n_times]
  | cons t rest ih =>
    intro done hnod
    have hnod2 : (((done ++ [t]) ++ rest).map logFileName).Nodup := by
      rw [← List.append_cons]
      exact hnod
    have hmap : ((done ++ t :: rest).map logFileName) =
        done.map logFileName ++ logFileName t :: rest.map logFileName := by
      simp
    have hnod' := hnod
    rw [hmap] at hnod'
    have hnotin : logFileName t ∉ done.map logFileName := by
      intro hmem
      exact (List.disjoint_of_nodup_append hnod') hmem (List.mem_cons_self _ _)
    have hstep := workflow_step_dirAfter fs table accept reject acc rej done t
      Hacc Hrej Hne Hdisj Hrange hnotin
    have heq : run_n_times fs table accept reject (dirAfter acc rej table done)
        (t :: rest) =
        run_n_times fs table accept reject (dirAfter acc rej table (done ++ [t])) rest := by
      simp only [run_n_times, hstep]
    rw [heq, ih (done ++ [t]) hnod2, ← List.append_cons]

/-- C8: after N successful runs into one output directory, exactly N files
match the timestamped log-name pattern checked by
`check_integration_outputs`, every matching file is the log of one of the
run times, and no other output file matches the pattern. -/
theorem C8_n_runs_n_logs (fs : FileSystem) (table : MetricsTable)
    (accept reject : Option (List ManualVal)) (acc rej : List Nat)
    (tss : List Timestamp)
    (Hacc : parse_manual_list fs accept = .ok acc)
    (Hrej : parse_manual_list fs reject = .ok rej)
    (Hne : ¬(acc = [] ∧ rej = []))
    (Hdisj : acc.filter (fun i => decide (i ∈ rej)) = [])
    (Hrange : ((acc ++ rej).all (fun i => table.any (fun c => decide (c.index = i)))) = true)
    (Hvalid : ∀ t ∈ tss, t.valid)
    (Hnodup : (tss.map logFileName).Nodup) :
    run_n_times fs table accept reject DirState.empty tss =
      .ok (dirAfter acc rej table tss) ∧
    ((dirAfter acc rej table tss).files.filter log_regex_match).length = tss.length ∧
    (∀ f ∈ (dirAfter acc rej table tss).files,
      log_regex_match f = true → f ∈ tss.map logFileName) ∧
    (∀ f ∈ (dirAfter acc rej table tss).files,
      log_regex_match f = false → f ∈ reclassifyOutputFiles) := by
  have hrun := run_n_times_spec fs table accept reject acc rej Hacc Hrej Hne Hdisj Hrange
    tss [] (by simpa using Hnodup)
  have hrm : reclassifyOutputFiles.filter log_regex_match = [] := by decide
  refine ⟨by simpa [dirAfter] using hrun, ?_, ?_, ?_⟩
  · cases tss with
    | nil => simp [dirAfter, DirState.empty]
    | cons t0 ts0 =>
      have hfl : (dirAfter acc rej table (t0 :: ts0)).files =
          reclassifyOutputFiles ++ (t0 :: ts0).map logFileName := by
        simp [dirAfter]
      rw [hfl, List.filter_append, hrm]
      have hself : ((t0 :: ts0).map logFileName).filter log_regex_match =
          (t0 :: ts0).map logFileName := by
        rw [List.filter_eq_self]
        intro a ha
        obtain ⟨t, ht, rfl⟩ := List.mem_map.mp ha
        exact log_regex_match_logFileName t (Hvalid t ht)
      rw [hself]
      simp
  · cases tss with
    | nil => simp [dirAfter, DirState.empty]
    | cons t0 ts0 =>
      have hfl : (dirAfter acc rej table (t0 :: ts0)).files =
          reclassifyOutputFiles ++ (t0 :: ts0).map logFileName := by
        simp [dirAfter]
      rw [hfl]
      intro f hf hmatch
      rcases List.mem_append.mp hf with hl | hr
      · exfalso
        have hor : f = "desc-tedana_registry.json" ∨ f = "desc-tedana_metrics.tsv" := by
          simpa [reclassifyOutputFiles] using hl
        rcases hor with rfl | rfl
        · exact absurd hmatch (by decide)
        · exact absurd hmatch (by decide)
      · exact hr
  · cases tss with
    | nil => simp [dirAfter, DirState.empty]
    | cons t0 ts0 =>
      have hfl : (dirAfter acc rej table (t0 :: ts0)).files =
          reclassifyOutputFiles ++ (t0 :: ts0).map logFileName := by
        simp [dirAfter]
      rw [hfl]
      intro f hf hmatch
      rcases List.mem_append.mp hf with hl | hr
      · exact hl
      · exfalso
        obtain ⟨t, ht, rfl⟩ := List.mem_map.mp hr
        rw [log_regex_match_logFileName t (Hvalid t ht)] at hmatch
        cases hmatch

/-- Witness for C8 with two runs at distinct times. -/
theorem C8_witness :
    run_n_times [] [⟨1, .unclassified, []⟩] (some [ManualVal.int 1]) none
      DirState.empty [⟨2024, 1, 2, 3, 4, 5⟩, ⟨2024, 1, 2, 3, 4, 6⟩] =
      .ok (dirAfter [1] [] [⟨1, .unclassified, []⟩]
        [⟨2024, 1, 2, 3, 4, 5⟩, ⟨2024, 1, 2, 3, 4, 6⟩]) ∧
    ((dirAfter [1] [] [⟨1, .unclassified, []⟩]
      [⟨2024, 1, 2, 3, 4, 5⟩, ⟨2024, 1, 2, 3, 4, 6⟩]).files.filter
        log_regex_match).length =
      ([⟨2024, 1, 2, 3, 4, 5⟩, ⟨2024, 1, 2, 3, 4, 6⟩] : List Timestamp).length ∧
    (∀ f ∈ (dirAfter [1] [] [⟨1, .unclassified, []⟩]
        [⟨2024, 1, 2, 3, 4, 5⟩, ⟨2024, 1, 2, 3, 4, 6⟩]).files,
      log_regex_match f = true →
        f ∈ ([⟨2024, 1, 2, 3, 4, 5⟩, ⟨2024, 1, 2, 3, 4, 6⟩] :
          List Timestamp).map logFileName) ∧
    (∀ f ∈ (dirAfter [1] [] [⟨1, .unclassified, []⟩]
        [⟨2024, 1, 2, 3, 4, 5⟩, ⟨2024, 1, 2, 3, 4, 6⟩]).files,
      log_regex_match f = false → f ∈ reclassifyOutputFiles) :=
  C8_n_runs_n_logs [] [⟨1, .unclassified, []⟩] (some [ManualVal.int 1]) none [1] []
    [⟨2024, 1, 2, 3, 4, 5⟩, ⟨2024, 1, 2, 3, 4, 6⟩] rfl rfl (by decide) rfl (by decide)
    (by decide) (by decide)

/-- C9: loading a persisted registry verifies that every file-valued entry
exists on disk; when one is missing the data-availability check treats
the registry as invalid and re-acquires the dataset (deleting the stale
copy and re-downloading) instead of proceeding with the partial registry. -/
theorem C9_registry_escalates (fresh d : Dataset) (role : String) (p : Path)
    (Hmem : (role, RegVal.file p) ∈ d.registry) (Hmiss : p ∉ d.files)
    (Hfresh : allPresent fresh = true) :
    allPresent d = false ∧
    (∀ n res, guarantee_reclassify_data fresh n d = some res →
      res = fresh ∧ allPresent res = true) ∧
    guarantee_reclassify_data fresh 2 d = some fresh := by
  have hfalse : allPresent d = false := by
    cases hAll : allPresent d
    · rfl
    · exfalso
      have h := List.all_eq_true.mp hAll ⟨role, RegVal.file p⟩ Hmem
      simp at h
      exact Hmiss h
  have haux : ∀ n res, guarantee_reclassify_data fresh n fresh = some res →
      res = fresh := by
    intro n res h
    cases n with
    | zero => cases h
    | succ m =>
      simp [guarantee_reclassify_data, Hfresh] at h
      exact h.symm
  refine ⟨hfalse, ?_, ?_⟩
  · intro n res h
    cases n with
    | zero => cases h
    | succ m =>
      simp only [guarantee_reclassify_data, hfalse, Bool.false_eq_true,
        if_false] at h
      have hres := haux m res h
      refine ⟨hres, ?_⟩
      rw [hres]
      exact Hfresh
  · simp [guarantee_reclassify_data, hfalse, Hfresh]

/-- Witness for C9: a registry entry whose file is missing locally but
present in the freshly downloaded dataset. -/
theorem C9_witness :
    allPresent ⟨[("ICA metrics tsv", RegVal.file "m.tsv")], []⟩ = false ∧
    (∀ n res, guarantee_reclassify_data
        ⟨[("ICA metrics tsv", RegVal.file "m.tsv")], ["m.tsv"]⟩ n
        ⟨[("ICA metrics tsv", RegVal.file "m.tsv")], []⟩ = some res →
      res = ⟨[("ICA metrics tsv", RegVal.file "m.tsv")], ["m.tsv"]⟩ ∧
        allPresent res = true) ∧
    guarantee_reclassify_data
      ⟨[("ICA metrics tsv", RegVal.file "m.tsv")], ["m.tsv"]⟩ 2
      ⟨[("ICA metrics tsv", RegVal.file "m.tsv")], []⟩ =
      some ⟨[("ICA metrics tsv", RegVal.file "m.tsv")], ["m.tsv"]⟩ :=
  C9_registry_escalates ⟨[("ICA metrics tsv", RegVal.file "m.tsv")], ["m.tsv"]⟩
    ⟨[("ICA metrics tsv", RegVal.file "m.tsv")], []⟩ "ICA metrics tsv" "m.tsv"
    (by decide) (by decide) rfl

end Tedana
